import Mathlib

/-!
Verification development for the smitheywarehouse NetSuite→Supabase sync scripts.

The definitions below are a shallow embedding of the core replication engine:

* `quote`, `params_string`, `base_string` model the OAuth 1.0 request-signing
  canonicalization in `make_ns_request` (all three sync scripts share it
  verbatim).  `quote s` models `urllib.parse.quote(s, safe='')` of modern
  CPython (3.7+): the string is UTF-8 encoded and every byte is percent-encoded
  except ASCII letters, digits and the four bytes `_ . - ~`, which are never
  quoted regardless of the `safe` argument.
* `make_ns_request` models the retry loop of `make_ns_request`: up to `retries`
  attempts; HTTP 429 sleeps 30 s and retries, a transport exception sleeps 5 s
  and retries, any other response is returned at once; exhausting the loop
  returns the sentinel `None`.  Attempt outcomes are supplied by an oracle.
* `sync_transactions` models the watermark-mode fetch/write loop of
  `sync_transactions` / `sync_line_items` in `sync-netsuite-h1-2025.py`:
  rows are represented by their watermark ids (the loop's control flow and
  counters depend only on page contents and sizes), the source table is a
  strictly id-sorted list, a page fetch returns the first `limit` rows with
  `id > last_id`, and the destination write status per batch is an oracle.
* `sync_customers` models the offset-mode fetch loop of `sync_customers`
  (`sync-netsuite-wholesale.py`) and `sync_transactions_streaming`
  (`sync-netsuite-wholesale-v2.py`): `OFFSET n FETCH NEXT limit ROWS`,
  `n := n + limit` after a full page, stop on an empty or short page.
* `SrcVal`, `transformLine`, `transformTxn` model the row transforms with
  Python semantics: required keys raise `KeyError` when absent, `dict.get`
  yields a falsy `None`, coercion is decided by truthiness
  (`float(x) if d.get(k) else None`, `int(x) if d.get(k) else 0`), and
  `float`/`int` conversion can raise.  Python floats are modelled as `Rat`
  (only plain decimal literals are parsed, which covers the payloads at issue).
* `sync_transactions_streaming` models the transaction loop of
  `sync_transactions_streaming` in `sync-netsuite-wholesale-v2.py` with the
  places where the Python can raise made explicit in an `Except`:
  `response.json()` on a malformed body, missing/ill-typed row fields in the
  transform, and an uncaught transport error inside `supabase_request`.
-/

/-! ## Percent-encoding and the OAuth base string -/

/-- UTF-8 encoding of one character, as byte values. -/
def utf8Bytes (c : Char) : List Nat :=
  let n := c.toNat
  if n < 128 then [n]
  else if n < 2048 then [192 + n / 64, 128 + n % 64]
  else if n < 65536 then [224 + n / 4096, 128 + (n / 64) % 64, 128 + n % 64]
  else [240 + n / 262144, 128 + (n / 4096) % 64, 128 + (n / 64) % 64, 128 + n % 64]

/-- The bytes of a string's UTF-8 encoding. -/
def strBytes (s : String) : List Nat :=
  (s.toList.map utf8Bytes).flatten

/-- Bytes that `urllib.parse.quote` never quotes (modern CPython, RFC 3986
unreserved set): ASCII letters, digits, and `- . _ ~`. -/
def alwaysSafeByte (b : Nat) : Bool :=
  (65 ≤ b && b ≤ 90) || (97 ≤ b && b ≤ 122) || (48 ≤ b && b ≤ 57) ||
    b == 45 || b == 46 || b == 95 || b == 126

/-- Uppercase hexadecimal digit for a value below 16. -/
def hexDigitChar (n : Nat) : Char :=
  if n < 10 then Char.ofNat (48 + n) else Char.ofNat (55 + n)

/-- Percent-encoding of a single byte: kept verbatim when in the never-quoted
set, otherwise replaced by a three-character escape. -/
def quoteByte (b : Nat) : List Char :=
  if alwaysSafeByte b then [Char.ofNat b]
  else ['%', hexDigitChar (b / 16), hexDigitChar (b % 16)]

/-- Model of `urllib.parse.quote(s, safe='')`: the per-byte encodings of the
string's UTF-8 bytes, concatenated. -/
def quote (s : String) : String :=
  String.mk (((strBytes s).map quoteByte).flatten)

/-- Ordering used for `sorted(oauth_params.items())`: Python sorts the
key/value pairs lexicographically; the parameter dictionary always has
pairwise distinct keys, so comparison by key alone is faithful. -/
def keyLe (p q : String × String) : Prop := p.1 ≤ q.1

instance : DecidableRel keyLe := fun p q => inferInstanceAs (Decidable (p.1 ≤ q.1))

instance : IsTotal (String × String) keyLe := ⟨fun p q => le_total p.1 q.1⟩

instance : IsTrans (String × String) keyLe := ⟨fun _ _ _ h1 h2 => le_trans h1 h2⟩

/-- Model of `sorted(oauth_params.items())`. -/
def sortPairs (ps : List (String × String)) : List (String × String) :=
  List.insertionSort keyLe ps

/-- Model of `params_string`: signing parameters joined as
`k=quote(v)` pairs in sorted order, separated by ampersands. -/
def params_string (ps : List (String × String)) : String :=
  String.intercalate "&" ((sortPairs ps).map (fun kv => kv.1 ++ "=" ++ quote kv.2))

/-- Model of `base_string`: the HTTP method, the percent-encoded URL with any
query part stripped, and the percent-encoded parameter string. -/
def base_string (method url : String) (ps : List (String × String)) : String :=
  method ++ "&" ++ quote ((url.splitOn "?").headD url) ++ "&" ++ quote (params_string ps)

/-! ## The signed-request retry loop -/

/-- Outcome of one attempt inside `make_ns_request`: a transport exception
raised by `requests`, or an HTTP response with the given status code. -/
inductive ReqOutcome where
  | exc : ReqOutcome
  | resp : Nat → ReqOutcome
deriving DecidableEq

/-- Result of a `make_ns_request` call: the returned response status (or the
sentinel `none` when all retries are exhausted), the number of attempts
performed, and the list of sleep durations in seconds, in order. -/
structure ReqResult where
  response : Option Nat
  attempts : Nat
  sleeps : List Nat
deriving DecidableEq

/-- Sleep performed after a retryable outcome: 5 s after a transport
exception, 30 s after a 429 response. -/
def retrySleep : ReqOutcome → Nat
  | ReqOutcome.exc => 5
  | ReqOutcome.resp _ => 30

/-- The `for attempt in range(retries)` loop of `make_ns_request`; `i` is the
absolute index of the next attempt, consulted in the outcome oracle. -/
def make_ns_request_go (outcome : Nat → ReqOutcome) : Nat → Nat → ReqResult
  | 0, _ => ⟨none, 0, []⟩
  | r + 1, i =>
    match outcome i with
    | ReqOutcome.exc =>
      let rest := make_ns_request_go outcome r (i + 1)
      ⟨rest.response, rest.attempts + 1, 5 :: rest.sleeps⟩
    | ReqOutcome.resp s =>
      if s = 429 then
        let rest := make_ns_request_go outcome r (i + 1)
        ⟨rest.response, rest.attempts + 1, 30 :: rest.sleeps⟩
      else ⟨some s, 1, []⟩

/-- Model of `make_ns_request(url, method, body, retries)`; each call in the
scripts uses the default `retries=3`. -/
def make_ns_request (outcome : Nat → ReqOutcome) (retries : Nat) : ReqResult :=
  make_ns_request_go outcome retries 0

/-! ## Watermark-mode sync loop (`sync-netsuite-h1-2025.py`) -/

/-- Destination write acceptance test: `status_code in [200, 201, 204]`. -/
def okStatus (s : Nat) : Bool :=
  s == 200 || s == 201 || s == 204

/-- One page fetch in watermark mode: the first `limit` rows satisfying the
strict predicate `id > lastId`, in ascending id order (the source list is
kept sorted by id, so the filter is already ascending). -/
def watermarkQuery (src : List Nat) (lastId limit : Nat) : List Nat :=
  (src.filter (fun x => decide (lastId < x))).take limit

/-- Python `max` over a page of ids (`max(t['transaction_id'] for t in items)`);
only ever applied to non-empty pages. -/
def pyMax : List Nat → Nat
  | [] => 0
  | x :: xs => max x (pyMax xs)

/-- One destination write: batch number, batch size, HTTP status returned. -/
structure WriteCall where
  batch : Nat
  size : Nat
  status : Nat
deriving DecidableEq

/-- Trace of one watermark-mode phase: pages fetched (row ids), write calls
issued, successive cursor values, final written total, number of page
fetches issued, final cursor, and batch numbers whose write failed (the
printed ERROR diagnostics). -/
structure SyncRun where
  pages : List (List Nat)
  writes : List WriteCall
  cursors : List Nat
  total : Nat
  fetches : Nat
  finalCursor : Nat
  errlog : List Nat
deriving DecidableEq

/-- The `while True` loop of `sync_transactions` in `sync-netsuite-h1-2025.py`
(and, with the same shape, `sync_line_items`): fetch a page with the strict
`id > last_id` predicate, stop on an empty page, advance the cursor to the
page maximum, upsert the batch (a failed write is printed and does not
increment the total), stop after a short page.  `w` gives the destination
status per batch number; `fuel` bounds the iteration count and is chosen
large enough to never be exhausted. -/
def sync_transactions_go (src : List Nat) (limit : Nat) (w : Nat → Nat) :
    Nat → Nat → Nat → Nat → SyncRun
  | 0, lastId, _, total => ⟨[], [], [], total, 0, lastId, []⟩
  | fuel + 1, lastId, batchNum, total =>
    let b := batchNum + 1
    let items := watermarkQuery src lastId limit
    if items.isEmpty then ⟨[], [], [], total, 1, lastId, []⟩
    else
      let newLast := pyMax items
      let st := w b
      let total2 := if okStatus st then total + items.length else total
      let err : List Nat := if okStatus st then [] else [b]
      if items.length < limit then
        ⟨[items], [⟨b, items.length, st⟩], [newLast], total2, 1, newLast, err⟩
      else
        let rest := sync_transactions_go src limit w fuel newLast b total2
        ⟨items :: rest.pages, ⟨b, items.length, st⟩ :: rest.writes,
          newLast :: rest.cursors, rest.total, rest.fetches + 1,
          rest.finalCursor, err ++ rest.errlog⟩

/-- A full watermark-mode phase run: cursor starts at 0, batch counter at 0. -/
def sync_transactions (src : List Nat) (limit : Nat) (w : Nat → Nat) : SyncRun :=
  sync_transactions_go src limit w (src.length + 1) 0 0 0

/-! ## Offset-mode fetch loop (`sync_customers`, `sync_transactions_streaming`) -/

/-- Trace of an offset-mode fetch loop: pages fetched, offsets of the issued
queries, number of fetches, final offset value. -/
structure OffsetRun (α : Type) where
  pages : List (List α)
  offsets : List Nat
  fetches : Nat
  finalOffset : Nat
deriving DecidableEq

/-- One page fetch in offset mode: `OFFSET offset ROWS FETCH NEXT limit ROWS
ONLY` over a stable source ordering. -/
def offsetQuery (src : List α) (offset limit : Nat) : List α :=
  (src.drop offset).take limit

/-- The offset-mode `while True` loop shared by `sync_customers`
(`sync-netsuite-wholesale.py`) and `sync_transactions_streaming`
(`sync-netsuite-wholesale-v2.py`): stop on an empty page, process the page,
stop after a short page, otherwise `offset += limit` and continue. -/
def sync_customers_go (src : List α) (limit : Nat) : Nat → Nat → OffsetRun α
  | 0, offset => ⟨[], [], 0, offset⟩
  | fuel + 1, offset =>
    let items := offsetQuery src offset limit
    if items.isEmpty then ⟨[], [offset], 1, offset⟩
    else if items.length < limit then ⟨[items], [offset], 1, offset⟩
    else
      let rest := sync_customers_go src limit fuel (offset + limit)
      ⟨items :: rest.pages, offset :: rest.offsets, rest.fetches + 1, rest.finalOffset⟩

/-- A full offset-mode fetch loop run, starting at offset 0. -/
def sync_customers (src : List α) (limit : Nat) : OffsetRun α :=
  sync_customers_go src limit (src.length + 1) 0

/-! ## Row values, truthiness, and the transforms -/

/-- A primitive value in a source row: SQL NULL (Python `None`), a number
(JSON numbers modelled as rationals), or a string. -/
inductive SrcVal where
  | vnull : SrcVal
  | vnum : Rat → SrcVal
  | vstr : String → SrcVal
deriving DecidableEq

/-- The Python exceptions that can arise in the sync loops. -/
inductive PyErr where
  | keyError : PyErr
  | typeError : PyErr
  | valueError : PyErr
  | jsonError : PyErr
  | transportError : PyErr
deriving DecidableEq

/-- Python truthiness of a primitive value: `None`, `0` and the empty string
are falsy, everything else is truthy. -/
def truthy : SrcVal → Bool
  | SrcVal.vnull => false
  | SrcVal.vnum q => !(q == 0)
  | SrcVal.vstr s => !(s == "")

/-- Truthiness of `d.get(k)`: an absent key yields `None`, which is falsy. -/
def truthyOpt : Option SrcVal → Bool
  | none => false
  | some v => truthy v

/-- The numeric value of a non-empty all-digit string. -/
def digitsVal : List Char → Option Nat
  | [] => none
  | cs =>
    if cs.all Char.isDigit then
      some (cs.foldl (fun acc c => acc * 10 + (c.toNat - 48)) 0)
    else none

/-- Decimal fraction digits after the point: their value over their count. -/
def fracVal (cs : List Char) : Option Rat :=
  if cs.all Char.isDigit then
    some ((cs.foldl (fun acc c => acc * 10 + (c.toNat - 48)) 0 : Rat) / ((10 : Rat) ^ cs.length))
  else none

/-- Parse of a plain unsigned decimal literal (`12`, `12.5`, `.5`, `5.`), the
forms `float` accepts that occur in these payloads. -/
def parseUnsigned (s : String) : Option Rat :=
  match s.splitOn "." with
  | [a] => (digitsVal a.toList).map (fun n => (n : Rat))
  | [a, b] =>
    if a.isEmpty && b.isEmpty then none
    else if (a.toList.all Char.isDigit) && (b.toList.all Char.isDigit) then
      match fracVal b.toList with
      | some f => some ((a.toList.foldl (fun acc c => acc * 10 + (c.toNat - 48)) 0 : Rat) + f)
      | none => none
    else none
  | _ => none

/-- Parse of a plain decimal literal with optional leading minus sign. -/
def parseDecimal (s : String) : Option Rat :=
  match s.toList with
  | '-' :: rest => (parseUnsigned (String.mk rest)).map (fun q => -q)
  | _ => parseUnsigned s

/-- Python `float(v)`: numbers pass through, decimal strings are parsed
(raising `ValueError` when malformed), `None` raises `TypeError`. -/
def pyFloat : SrcVal → Except PyErr Rat
  | SrcVal.vnum q => Except.ok q
  | SrcVal.vstr s =>
    match parseDecimal s with
    | some q => Except.ok q
    | none => Except.error PyErr.valueError
  | SrcVal.vnull => Except.error PyErr.typeError

/-- Parse of an optionally-signed integer literal, as accepted by `int`. -/
def parseIntStr (s : String) : Option Int :=
  match s.toList with
  | '-' :: rest => (digitsVal rest).map (fun n => -(n : Int))
  | _ => (digitsVal s.toList).map (fun n => (n : Int))

/-- Python `int(v)`: numbers truncate toward zero, integer-literal strings are
parsed (raising `ValueError` when malformed), `None` raises `TypeError`. -/
def pyInt : SrcVal → Except PyErr Int
  | SrcVal.vnum q => Except.ok (Int.tdiv q.num (q.den : Int))
  | SrcVal.vstr s =>
    match parseIntStr s with
    | some n => Except.ok n
    | none => Except.error PyErr.valueError
  | SrcVal.vnull => Except.error PyErr.typeError

/-- A required key access `row['k']`: raises `KeyError` when absent. -/
def pyReq (v : Option SrcVal) : Except PyErr SrcVal :=
  match v with
  | none => Except.error PyErr.keyError
  | some x => Except.ok x

/-- The coercion `float(row['k']) if row.get('k') else None`: decided by
truthiness of the fetched value, not by key presence. -/
def coerceOptFloat (v : Option SrcVal) : Except PyErr (Option Rat) :=
  if truthyOpt v then
    match pyFloat (v.getD SrcVal.vnull) with
    | Except.ok q => Except.ok (some q)
    | Except.error e => Except.error e
  else Except.ok none

/-- The coercion `int(row['quantity']) if row.get('quantity') else 0`. -/
def coerceQty (v : Option SrcVal) : Except PyErr Int :=
  if truthyOpt v then pyInt (v.getD SrcVal.vnull) else Except.ok 0

/-- A source line-item row, as selected by the line-item queries; `none`
means the key is absent from the returned item. -/
structure LineRow where
  transaction_id : Option SrcVal
  line_id : Option SrcVal
  item_id : Option SrcVal
  sku : Option SrcVal
  quantity : Option SrcVal
  rate : Option SrcVal
  netamount : Option SrcVal
  foreignamount : Option SrcVal
  itemtype : Option SrcVal
deriving DecidableEq

/-- A transformed line-item destination record. -/
structure DestLine where
  ns_line_id : SrcVal
  ns_transaction_id : SrcVal
  ns_item_id : Option SrcVal
  sku : SrcVal
  quantity : Int
  rate : Option Rat
  net_amount : Option Rat
  foreign_amount : Option Rat
  item_type : Option SrcVal
deriving DecidableEq

/-- The line-item transform shared verbatim by all three scripts, with
Python evaluation order of the record fields. -/
def transformLine (li : LineRow) : Except PyErr DestLine :=
  match pyReq li.line_id with
  | Except.error e => Except.error e
  | Except.ok lid =>
    match pyReq li.transaction_id with
    | Except.error e => Except.error e
    | Except.ok tid =>
      match coerceQty li.quantity with
      | Except.error e => Except.error e
      | Except.ok qty =>
        match coerceOptFloat li.rate with
        | Except.error e => Except.error e
        | Except.ok r =>
          match coerceOptFloat li.netamount with
          | Except.error e => Except.error e
          | Except.ok na =>
            match coerceOptFloat li.foreignamount with
            | Except.error e => Except.error e
            | Except.ok fa =>
              Except.ok ⟨lid, tid, li.item_id, li.sku.getD (SrcVal.vstr "UNKNOWN"),
                qty, r, na, fa, li.itemtype⟩

/-- A source transaction row, as selected by the transaction queries. -/
structure TxnRow where
  transaction_id : Option SrcVal
  tranid : Option SrcVal
  transaction_type : Option SrcVal
  trandate : Option SrcVal
  transaction_total : Option SrcVal
  status : Option SrcVal
  customer_id : Option SrcVal
deriving DecidableEq

/-- A transformed transaction destination record. -/
structure DestTxn where
  ns_transaction_id : SrcVal
  tran_id : SrcVal
  transaction_type : SrcVal
  tran_date : SrcVal
  foreign_total : Option Rat
  status : Option SrcVal
  ns_customer_id : SrcVal
deriving DecidableEq

/-- The transaction transform shared verbatim by all three scripts. -/
def transformTxn (t : TxnRow) : Except PyErr DestTxn :=
  match pyReq t.transaction_id with
  | Except.error e => Except.error e
  | Except.ok tid =>
    match pyReq t.tranid with
    | Except.error e => Except.error e
    | Except.ok trid =>
      match pyReq t.transaction_type with
      | Except.error e => Except.error e
      | Except.ok tty =>
        match pyReq t.trandate with
        | Except.error e => Except.error e
        | Except.ok tdate =>
          match coerceOptFloat t.transaction_total with
          | Except.error e => Except.error e
          | Except.ok ftot =>
            match pyReq t.customer_id with
            | Except.error e => Except.error e
            | Except.ok cid =>
              Except.ok ⟨tid, trid, tty, tdate, ftot, t.status, cid⟩

/-! ## The streaming transaction phase with explicit exceptions -/

/-- Body of an HTTP 200 response from the source: either not valid JSON
(`response.json()` raises) or a parsed item list (`data.get('items', [])`;
a body without an `items` key is the empty list). -/
inductive RespBody where
  | badJson : RespBody
  | goodJson : List TxnRow → RespBody
deriving DecidableEq

/-- Outcome of one page fetch as seen by the phase: `make_ns_request`
returned `None`, or a response with a status code and body. -/
inductive FetchOutcome where
  | noResp : FetchOutcome
  | resp : Nat → RespBody → FetchOutcome
deriving DecidableEq

/-- Outcome of one `supabase_request` write call: a transport exception
raised by `requests.post` (uncaught in the script), or an HTTP status. -/
inductive WriteOutcome where
  | raise : WriteOutcome
  | status : Nat → WriteOutcome
deriving DecidableEq

/-- Result of a phase that ran to completion without an escaping exception:
written total, page fetches issued, failed-write batch numbers (the printed
diagnostics), and whether the phase stopped on a fetch failure. -/
structure PhaseRes where
  total : Nat
  fetches : Nat
  errlog : List Nat
  fetchFailed : Bool
deriving DecidableEq

/-- The transaction loop of `sync_transactions_streaming` in
`sync-netsuite-wholesale-v2.py`, with every place the Python can raise made
explicit: a fetch failure (`None` or status other than 200) breaks the loop;
a 200 response with a malformed body raises inside `response.json()`; a row
missing a required key or carrying an unparseable numeric field raises inside
the transform; a transport error inside `supabase_request` raises; a write
returning a status outside 200/201/204 is printed and the loop continues. -/
def sync_transactions_streaming_go (fetch : Nat → FetchOutcome)
    (write : Nat → WriteOutcome) (limit : Nat) :
    Nat → Nat → Nat → Except PyErr PhaseRes
  | 0, _, total => Except.ok ⟨total, 0, [], false⟩
  | fuel + 1, batchNum, total =>
    let b := batchNum + 1
    match fetch b with
    | FetchOutcome.noResp => Except.ok ⟨total, 1, [], true⟩
    | FetchOutcome.resp s body =>
      if s ≠ 200 then Except.ok ⟨total, 1, [], true⟩
      else
        match body with
        | RespBody.badJson => Except.error PyErr.jsonError
        | RespBody.goodJson items =>
          if items.isEmpty then Except.ok ⟨total, 1, [], false⟩
          else
            match items.mapM transformTxn with
            | Except.error e => Except.error e
            | Except.ok records =>
              match write b with
              | WriteOutcome.raise => Except.error PyErr.transportError
              | WriteOutcome.status st =>
                let total2 := if okStatus st then total + records.length else total
                let err : List Nat := if okStatus st then [] else [b]
                if items.length < limit then Except.ok ⟨total2, 1, err, false⟩
                else
                  match sync_transactions_streaming_go fetch write limit fuel b total2 with
                  | Except.error e => Except.error e
                  | Except.ok rest =>
                    Except.ok ⟨rest.total, rest.fetches + 1, err ++ rest.errlog,
                      rest.fetchFailed⟩

/-- A run of the streaming transaction phase from the initial state; the
fetch and write oracles are indexed by iteration (batch) number, and `fuel`
bounds the number of iterations considered. -/
def sync_transactions_streaming (fetch : Nat → FetchOutcome)
    (write : Nat → WriteOutcome) (limit fuel : Nat) : Except PyErr PhaseRes :=
  sync_transactions_streaming_go fetch write limit fuel 0 0

/-- Well-formedness of one fetch outcome: a failed fetch is fine (the loop
breaks), and a 200 response must carry valid JSON whose rows all transform
without raising. -/
def fetchOk : FetchOutcome → Bool
  | FetchOutcome.noResp => true
  | FetchOutcome.resp s RespBody.badJson => !(s == 200)
  | FetchOutcome.resp _ (RespBody.goodJson items) =>
    items.all (fun t => (transformTxn t).toBool)

/-! ## Helper lemmas -/

theorem pyMax_le {l : List Nat} : ∀ x ∈ l, x ≤ pyMax l := by
  induction l with
  | nil => intro x hx; cases hx
  | cons a t ih =>
    intro x hx
    rcases List.mem_cons.mp hx with rfl | hx
    · exact le_max_left _ _
    · exact le_trans (ih x hx) (le_max_right _ _)

theorem pyMax_mem {l : List Nat} (h : l ≠ []) : pyMax l ∈ l := by
  induction l with
  | nil => exact absurd rfl h
  | cons a t ih =>
    by_cases ht : t = []
    · subst ht; simp [pyMax]
    · rcases max_choice a (pyMax t) with hm | hm
      · show a ⊔ pyMax t ∈ a :: t
        rw [hm]
        exact List.mem_cons_self a t
      · show a ⊔ pyMax t ∈ a :: t
        rw [hm]
        exact List.mem_cons_of_mem a (ih ht)

theorem range_map_shift (o P n : Nat) :
    o :: (List.range n).map (fun k => o + P + k * P) =
      (List.range (n + 1)).map (fun k => o + k * P) := by
  rw [List.range_succ_eq_map]
  simp only [List.map_cons, List.map_map]
  congr 1
  · simp
  · apply List.map_congr_left
    intro k _
    simp only [Function.comp_apply, Nat.succ_eq_add_one]
    ring

theorem sync_customers_go_spec {α : Type} (src : List α) (P : Nat) (hP : 0 < P) :
    ∀ fuel o, src.length - o < fuel →
      (sync_customers_go src P fuel o).pages.flatten = src.drop o ∧
      (sync_customers_go src P fuel o).fetches = (src.length - o) / P + 1 ∧
      (sync_customers_go src P fuel o).offsets =
        (List.range (sync_customers_go src P fuel o).fetches).map (fun k => o + k * P) ∧
      (∀ pg ∈ (sync_customers_go src P fuel o).pages.dropLast, pg.length = P) ∧
      (∀ pg ∈ (sync_customers_go src P fuel o).pages, pg.length ≤ P) ∧
      (offsetQuery src (o + ((sync_customers_go src P fuel o).fetches - 1) * P) P).length < P ∧
      (sync_customers_go src P fuel o).finalOffset =
        o + ((sync_customers_go src P fuel o).fetches - 1) * P := by
  intro fuel
  induction fuel with
  | zero => intro o hfuel; omega
  | succ f ih =>
    intro o hfuel
    have hlenq : (offsetQuery src o P).length = min P (src.length - o) := by
      simp [offsetQuery]
    by_cases hemp : (offsetQuery src o P).isEmpty = true
    · have hnil : offsetQuery src o P = [] := by
        simpa [List.isEmpty_iff] using hemp
      have hdrop : src.drop o = [] := by
        rcases List.take_eq_nil_iff.mp hnil with h | h
        · omega
        · exact h
      have hlen0 : src.length - o = 0 := by
        have hld := List.length_drop o src
        rw [hdrop] at hld
        simpa using hld.symm
      simp only [sync_customers_go]
      rw [if_pos hemp]
      refine ⟨by simp [hdrop], ?_, ?_, by simp, by simp, ?_, ?_⟩
      · show 1 = (src.length - o) / P + 1
        simp [hlen0]
      · show [o] = (List.range 1).map (fun k => o + k * P)
        simp [List.range_succ]
      · show (offsetQuery src (o + (1 - 1) * P) P).length < P
        simpa [hnil] using hP
      · show o = o + (1 - 1) * P
        simp
    · by_cases hshort : (offsetQuery src o P).length < P
      · have hne : offsetQuery src o P ≠ [] := by
          intro hc
          rw [hc] at hemp
          exact hemp rfl
        have hrem : src.length - o < P := by
          rcases Nat.lt_or_ge (src.length - o) P with h | h
          · exact h
          · omega
        have hdiv0 : (src.length - o) / P = 0 := Nat.div_eq_of_lt hrem
        have htake : offsetQuery src o P = src.drop o := by
          apply List.take_of_length_le
          simp
          omega
        simp only [sync_customers_go]
        rw [if_neg hemp, if_pos hshort]
        refine ⟨by simp [htake], ?_, ?_, ?_, ?_, ?_, ?_⟩
        · show 1 = (src.length - o) / P + 1
          simp [hdiv0]
        · show [o] = (List.range 1).map (fun k => o + k * P)
          simp [List.range_succ]
        · intro pg hpg
          simp at hpg
        · intro pg hpg
          simp only [List.mem_singleton] at hpg
          subst hpg
          omega
        · show (offsetQuery src (o + (1 - 1) * P) P).length < P
          simpa using hshort
        · show o = o + (1 - 1) * P
          simp
      · have hfull : (offsetQuery src o P).length = P := by omega
        have hge : P ≤ src.length - o := by omega
        have hfuel2 : src.length - (o + P) < f := by omega
        obtain ⟨r1, r2, r3, r4, r5, r6, r7⟩ := ih (o + P) hfuel2
        have hdivstep : (src.length - o) / P = (src.length - (o + P)) / P + 1 := by
          have hm : src.length - o = (src.length - (o + P)) + P := by omega
          rw [hm, Nat.add_div_right _ hP]
        simp only [sync_customers_go]
        rw [if_neg hemp, if_neg hshort]
        rw [r2] at r3 r6 r7
        rw [Nat.add_sub_cancel] at r6 r7
        refine ⟨?_, ?_, ?_, ?_, ?_, ?_, ?_⟩
        · show offsetQuery src o P ++ (sync_customers_go src P f (o + P)).pages.flatten =
            src.drop o
          rw [r1]
          have hdd : src.drop (o + P) = (src.drop o).drop P := by
            rw [List.drop_drop, Nat.add_comm]
          rw [hdd, offsetQuery]
          exact List.take_append_drop P (src.drop o)
        · show (sync_customers_go src P f (o + P)).fetches + 1 = (src.length - o) / P + 1
          rw [r2, hdivstep]
        · show o :: (sync_customers_go src P f (o + P)).offsets =
            (List.range ((sync_customers_go src P f (o + P)).fetches + 1)).map
              (fun k => o + k * P)
          rw [r3, r2]
          exact range_map_shift o P ((src.length - (o + P)) / P + 1)
        · intro pg hpg
          rcases hpages : (sync_customers_go src P f (o + P)).pages with _ | ⟨q, qs⟩
          · rw [hpages] at hpg
            simp at hpg
          · rw [hpages] at hpg
            rw [List.dropLast_cons₂] at hpg
            rcases List.mem_cons.mp hpg with rfl | hpg
            · exact hfull
            · exact r4 pg (by rw [hpages]; exact hpg)
        · intro pg hpg
          rcases List.mem_cons.mp hpg with rfl | hpg
          · omega
          · exact r5 pg hpg
        · show (offsetQuery src
              (o + ((sync_customers_go src P f (o + P)).fetches + 1 - 1) * P) P).length < P
          rw [r2, Nat.add_sub_cancel]
          have harith : o + ((src.length - (o + P)) / P + 1) * P =
              o + P + (src.length - (o + P)) / P * P := by ring
          rw [harith]
          exact r6
        · show (sync_customers_go src P f (o + P)).finalOffset =
            o + ((sync_customers_go src P f (o + P)).fetches + 1 - 1) * P
          rw [r7, r2, Nat.add_sub_cancel]
          ring

theorem div_sub_step (n P : Nat) (hP : 0 < P) (h : P ≤ n) : n / P = (n - P) / P + 1 := by
  have hm : n = (n - P) + P := by omega
  conv_lhs => rw [hm]
  rw [Nat.add_div_right _ hP]

/-- Claim C5 (confirmed): the offset-mode fetch loop issues its queries at
offsets 0, P, 2P, …, incrementing by exactly the page size after each full
page; it terminates exactly when a fetched page has fewer than P rows (zero
included), the short final page still being processed; every processed page
has at most P rows, all but the last exactly P; and the concatenation of the
processed pages is the whole (stably ordered) source.  The loop issues
⌊N/P⌋ + 1 fetches in total, the last being the empty or short page. -/
theorem C5_offset_pagination {α : Type} (src : List α) (P : Nat) (hP : 0 < P) :
    (sync_customers src P).pages.flatten = src ∧
    (sync_customers src P).offsets =
      (List.range (sync_customers src P).fetches).map (fun k => k * P) ∧
    (∀ pg ∈ (sync_customers src P).pages.dropLast, pg.length = P) ∧
    (∀ pg ∈ (sync_customers src P).pages, pg.length ≤ P) ∧
    (offsetQuery src (((sync_customers src P).fetches - 1) * P) P).length < P ∧
    (sync_customers src P).fetches = src.length / P + 1 := by
  obtain ⟨r1, r2, r3, r4, r5, r6, r7⟩ :=
    sync_customers_go_spec src P hP (src.length + 1) 0 (by omega)
  unfold sync_customers
  refine ⟨by simpa using r1, ?_, r4, r5, by simpa using r6, by simpa using r2⟩
  rw [r3]
  apply List.map_congr_left
  intro k _
  omega

theorem C5_offset_pagination_witness :
    (sync_customers ([10, 20, 30] : List Nat) 2).pages.flatten = [10, 20, 30] ∧
    (sync_customers ([10, 20, 30] : List Nat) 2).fetches =
      ([10, 20, 30] : List Nat).length / 2 + 1 := by
  have h := C5_offset_pagination ([10, 20, 30] : List Nat) 2 (by decide)
  exact ⟨h.1, h.2.2.2.2.2⟩

theorem filter_filter_of_imp (p q : Nat → Bool) (l : List Nat)
    (h : ∀ x, p x = true → q x = true) :
    (l.filter q).filter p = l.filter p := by
  induction l with
  | nil => rfl
  | cons a t ih =>
    by_cases hp : p a = true
    · have hq := h a hp
      simp [List.filter_cons, hp, hq, ih]
    · by_cases hq : q a = true
      · simp [List.filter_cons, hp, hq, ih]
      · simp [List.filter_cons, hp, hq, ih]

theorem sorted_filter_gt_pyMax_take (l : List Nat) (P : Nat)
    (hs : List.Pairwise (· < ·) l) (hfull : (l.take P).length = P) (hP : 0 < P) :
    l.filter (fun x => decide (pyMax (l.take P) < x)) = l.drop P := by
  have htd : l.take P ++ l.drop P = l := List.take_append_drop P l
  have hpw : List.Pairwise (· < ·) (l.take P ++ l.drop P) := by rw [htd]; exact hs
  obtain ⟨hpt, hpd, hcross⟩ := List.pairwise_append.mp hpw
  have hne : l.take P ≠ [] := by
    intro hc
    rw [hc] at hfull
    simp at hfull
    omega
  have hm : pyMax (l.take P) ∈ l.take P := pyMax_mem hne
  have h1 : (l.take P).filter (fun x => decide (pyMax (l.take P) < x)) = [] := by
    rw [List.filter_eq_nil_iff]
    intro a ha
    simp only [decide_eq_true_eq]
    exact fun hlt => absurd hlt (not_lt.mpr (pyMax_le a ha))
  have h2 : (l.drop P).filter (fun x => decide (pyMax (l.take P) < x)) = l.drop P := by
    rw [List.filter_eq_self]
    intro a ha
    simp only [decide_eq_true_eq]
    exact hcross _ hm _ ha
  calc l.filter (fun x => decide (pyMax (l.take P) < x))
      = (l.take P ++ l.drop P).filter (fun x => decide (pyMax (l.take P) < x)) := by
        rw [htd]
    _ = l.drop P := by rw [List.filter_append, h1, h2, List.nil_append]

theorem watermarkQuery_mem_gt (src : List Nat) (c P : Nat) :
    ∀ x ∈ watermarkQuery src c P, c < x := by
  intro x hx
  have hx2 : x ∈ (src.filter (fun x => decide (c < x))) := List.mem_of_mem_take hx
  have := List.of_mem_filter hx2
  simpa using this

theorem watermarkQuery_cursor_lt_pyMax (src : List Nat) (c P : Nat)
    (h : watermarkQuery src c P ≠ []) : c < pyMax (watermarkQuery src c P) :=
  watermarkQuery_mem_gt src c P _ (pyMax_mem h)

theorem sync_transactions_go_spec (src : List Nat) (P : Nat) (w : Nat → Nat)
    (hP : 0 < P) (hs : List.Pairwise (· < ·) src) :
    ∀ fuel c b t, (src.filter (fun x => decide (c < x))).length < fuel →
      (sync_transactions_go src P w fuel c b t).pages.flatten =
        src.filter (fun x => decide (c < x)) ∧
      (sync_transactions_go src P w fuel c b t).fetches =
        (src.filter (fun x => decide (c < x))).length / P + 1 ∧
      (sync_transactions_go src P w fuel c b t).writes.map WriteCall.batch =
        List.range' (b + 1) (sync_transactions_go src P w fuel c b t).pages.length ∧
      (sync_transactions_go src P w fuel c b t).writes.map WriteCall.size =
        (sync_transactions_go src P w fuel c b t).pages.map List.length ∧
      (∀ wc ∈ (sync_transactions_go src P w fuel c b t).writes, wc.status = w wc.batch) ∧
      (sync_transactions_go src P w fuel c b t).total = t +
        (((sync_transactions_go src P w fuel c b t).writes.filter
          (fun wc => okStatus wc.status)).map WriteCall.size).sum ∧
      (sync_transactions_go src P w fuel c b t).errlog =
        ((sync_transactions_go src P w fuel c b t).writes.filter
          (fun wc => !okStatus wc.status)).map WriteCall.batch ∧
      List.Chain' (· < ·) (c :: (sync_transactions_go src P w fuel c b t).cursors) ∧
      (sync_transactions_go src P w fuel c b t).finalCursor =
        (sync_transactions_go src P w fuel c b t).cursors.getLastD c := by
  intro fuel
  induction fuel with
  | zero => intro c b t hfuel; omega
  | succ f ih =>
    intro c b t hfuel
    have hq : watermarkQuery src c P = (src.filter (fun x => decide (c < x))).take P := rfl
    have hlenq : (watermarkQuery src c P).length =
        min P (src.filter (fun x => decide (c < x))).length := by
      rw [hq]; exact List.length_take P _
    by_cases hemp : (watermarkQuery src c P).isEmpty = true
    · have hnil : watermarkQuery src c P = [] := by
        simpa [List.isEmpty_iff] using hemp
      have hfil : src.filter (fun x => decide (c < x)) = [] := by
        rw [hq] at hnil
        rcases List.take_eq_nil_iff.mp hnil with h | h
        · omega
        · exact h
      simp only [sync_transactions_go]
      rw [if_pos hemp]
      refine ⟨by simp [hfil], ?_, ?_, by simp, by simp, by simp, by simp, ?_, ?_⟩
      · show 1 = (src.filter (fun x => decide (c < x))).length / P + 1
        simp [hfil]
      · show ([] : List WriteCall).map WriteCall.batch = List.range' (b + 1) 0
        simp [List.range']
      · exact List.chain'_singleton c
      · rfl
    · have hne : watermarkQuery src c P ≠ [] := by
        intro hc
        rw [hc] at hemp
        exact hemp rfl
      have hlt_c : c < pyMax (watermarkQuery src c P) :=
        watermarkQuery_cursor_lt_pyMax src c P hne
      by_cases hshort : (watermarkQuery src c P).length < P
      · have hnP : (src.filter (fun x => decide (c < x))).length < P := by omega
        have hfull_fil : watermarkQuery src c P = src.filter (fun x => decide (c < x)) := by
          rw [hq]
          exact List.take_of_length_le (by omega)
        simp only [sync_transactions_go]
        rw [if_neg hemp, if_pos hshort]
        refine ⟨by simp [hfull_fil], ?_, ?_, by simp, ?_, ?_, ?_, ?_, ?_⟩
        · show 1 = (src.filter (fun x => decide (c < x))).length / P + 1
          simp [Nat.div_eq_of_lt hnP]
        · show [b + 1] = List.range' (b + 1) 1
          rfl
        · intro wc hwc
          simp only [List.mem_singleton] at hwc
          subst hwc
          rfl
        · show (if okStatus (w (b + 1)) = true then t + (watermarkQuery src c P).length
              else t) = t + _
          by_cases hok : okStatus (w (b + 1)) = true
          · simp [hok, List.filter_cons]
          · simp [hok, List.filter_cons]
        · show (if okStatus (w (b + 1)) = true then ([] : List Nat) else [b + 1]) = _
          by_cases hok : okStatus (w (b + 1)) = true
          · simp [hok, List.filter_cons]
          · simp [hok, List.filter_cons]
        · exact List.chain'_pair.mpr hlt_c
        · rfl
      · have hfull : (watermarkQuery src c P).length = P := by omega
        have hge : P ≤ (src.filter (fun x => decide (c < x))).length := by omega
        have hkey : src.filter (fun x => decide (pyMax (watermarkQuery src c P) < x)) =
            (src.filter (fun x => decide (c < x))).drop P := by
          have step1 := filter_filter_of_imp
            (fun x => decide (pyMax (watermarkQuery src c P) < x))
            (fun x => decide (c < x)) src
            (by
              intro x hx
              simp only [decide_eq_true_eq] at hx ⊢
              omega)
          have step2 := sorted_filter_gt_pyMax_take
            (src.filter (fun x => decide (c < x))) P (hs.filter _) (by rw [← hq]; exact hfull) hP
          rw [← hq] at step2
          rw [← step1, step2]
        have hrem : (src.filter (fun x => decide (pyMax (watermarkQuery src c P) < x))).length
            < f := by
          rw [hkey]
          simp only [List.length_drop]
          omega
        obtain ⟨r1, r2, r3, r4, r5, r6, r7, r8, r9⟩ :=
          ih (pyMax (watermarkQuery src c P)) (b + 1)
            (if okStatus (w (b + 1)) = true then t + (watermarkQuery src c P).length else t)
            hrem
        have hdiv := div_sub_step (src.filter (fun x => decide (c < x))).length P hP hge
        simp only [sync_transactions_go]
        rw [if_neg hemp, if_neg hshort]
        refine ⟨?_, ?_, ?_, ?_, ?_, ?_, ?_, ?_, ?_⟩
        · show watermarkQuery src c P ++ _ = _
          rw [r1, hkey, hq]
          exact List.take_append_drop P _
        · show _ + 1 = _
          rw [r2, hkey]
          simp only [List.length_drop]
          omega
        · show (b + 1) :: _ = List.range' (b + 1) (_ + 1)
          rw [List.range'_succ, r3]
        · show (watermarkQuery src c P).length :: _ = _
          rw [r4]
          rfl
        · intro wc hwc
          rcases List.mem_cons.mp hwc with rfl | hwc
          · rfl
          · exact r5 wc hwc
        · show _ = t + _
          rw [r6]
          by_cases hok : okStatus (w (b + 1)) = true
          · simp only [hok, if_true, List.filter_cons, hok, List.map_cons, List.sum_cons]
            omega
          · simp only [hok, if_false, List.filter_cons]
            simp only [Bool.not_eq_true] at hok
            simp [hok]
        · show (if okStatus (w (b + 1)) = true then ([] : List Nat) else [b + 1]) ++ _ = _
          rw [r7]
          by_cases hok : okStatus (w (b + 1)) = true
          · simp [hok, List.filter_cons]
          · simp [hok, List.filter_cons]
        · exact List.chain'_cons.mpr ⟨hlt_c, r8⟩
        · show _ = (pyMax (watermarkQuery src c P) :: _).getLastD c
          rw [List.getLastD_cons]
          exact r9

theorem sync_transactions_go_write_indep (src : List Nat) (P : Nat) (w w' : Nat → Nat) :
    ∀ fuel c b t t',
      (sync_transactions_go src P w fuel c b t).pages =
        (sync_transactions_go src P w' fuel c b t').pages ∧
      (sync_transactions_go src P w fuel c b t).cursors =
        (sync_transactions_go src P w' fuel c b t').cursors ∧
      (sync_transactions_go src P w fuel c b t).fetches =
        (sync_transactions_go src P w' fuel c b t').fetches ∧
      (sync_transactions_go src P w fuel c b t).finalCursor =
        (sync_transactions_go src P w' fuel c b t').finalCursor := by
  intro fuel
  induction fuel with
  | zero => intro c b t t'; exact ⟨rfl, rfl, rfl, rfl⟩
  | succ f ih =>
    intro c b t t'
    simp only [sync_transactions_go]
    by_cases hemp : (watermarkQuery src c P).isEmpty = true
    · rw [if_pos hemp, if_pos hemp]
      exact ⟨rfl, rfl, rfl, rfl⟩
    · rw [if_neg hemp, if_neg hemp]
      by_cases hshort : (watermarkQuery src c P).length < P
      · rw [if_pos hshort, if_pos hshort]
        exact ⟨rfl, rfl, rfl, rfl⟩
      · rw [if_neg hshort, if_neg hshort]
        obtain ⟨i1, i2, i3, i4⟩ := ih (pyMax (watermarkQuery src c P)) (b + 1)
          (if okStatus (w (b + 1)) = true then t + (watermarkQuery src c P).length else t)
          (if okStatus (w' (b + 1)) = true then t' + (watermarkQuery src c P).length else t')
        refine ⟨?_, ?_, ?_, ?_⟩
        · show watermarkQuery src c P :: _ = watermarkQuery src c P :: _
          rw [i1]
        · show pyMax (watermarkQuery src c P) :: _ = pyMax (watermarkQuery src c P) :: _
          rw [i2]
        · show _ + 1 = _ + 1
          rw [i3]
        · exact i4

theorem sync_transactions_go_cursors_chain (src : List Nat) (P : Nat) (w : Nat → Nat) :
    ∀ fuel c b t,
      List.Chain' (· < ·) (c :: (sync_transactions_go src P w fuel c b t).cursors) := by
  intro fuel
  induction fuel with
  | zero => intro c b t; exact List.chain'_singleton c
  | succ f ih =>
    intro c b t
    simp only [sync_transactions_go]
    by_cases hemp : (watermarkQuery src c P).isEmpty = true
    · rw [if_pos hemp]
      exact List.chain'_singleton c
    · rw [if_neg hemp]
      have hne : watermarkQuery src c P ≠ [] := fun hc => hemp (by rw [hc]; rfl)
      have hlt := watermarkQuery_cursor_lt_pyMax src c P hne
      by_cases hshort : (watermarkQuery src c P).length < P
      · rw [if_pos hshort]
        exact List.chain'_pair.mpr hlt
      · rw [if_neg hshort]
        exact List.chain'_cons.mpr ⟨hlt, ih _ _ _⟩

theorem ceil_div_of_not_dvd (N P : Nat) (hP : 0 < P) (h : ¬ P ∣ N) :
    (N + P - 1) / P = N / P + 1 := by
  have hmod : N % P ≠ 0 := fun hc => h (Nat.dvd_of_mod_eq_zero hc)
  have hdm : P * (N / P) + N % P = N := Nat.div_add_mod N P
  have hrP : N % P < P := Nat.mod_lt _ hP
  have h1 : N + P - 1 = (N % P - 1) + P * (N / P + 1) := by
    rw [Nat.mul_succ]
    omega
  rw [h1, Nat.add_mul_div_left _ _ hP, Nat.div_eq_of_lt (by omega)]
  omega

/-- Claim C1 (corrected): for a source of N rows with unique, positive ids
(all matching the phase filter) and page size P, the watermark fetch loop of
`sync_transactions` fetches every row exactly once — the concatenation of the
fetched pages is exactly the source, in order, so there are no gaps and no
duplicates — and terminates after exactly ⌊N/P⌋ + 1 page fetches.  When P
does not divide N this equals the claimed ⌈N/P⌉; when P divides N the loop
issues one extra final fetch that returns an empty page (see the
counterexample). -/
theorem C1_watermark_completeness (src : List Nat) (P : Nat) (w : Nat → Nat)
    (hP : 0 < P) (hs : List.Pairwise (· < ·) src) (hpos : ∀ x ∈ src, 0 < x) :
    (sync_transactions src P w).pages.flatten = src ∧
    (sync_transactions src P w).fetches = src.length / P + 1 ∧
    (¬ P ∣ src.length → (sync_transactions src P w).fetches = (src.length + P - 1) / P) := by
  have hfil : src.filter (fun x => decide (0 < x)) = src := by
    rw [List.filter_eq_self]
    intro a ha
    simpa using hpos a ha
  obtain ⟨r1, r2, _⟩ := sync_transactions_go_spec src P w hP hs (src.length + 1) 0 0 0
    (by rw [hfil]; omega)
  rw [hfil] at r1 r2
  unfold sync_transactions
  refine ⟨r1, r2, ?_⟩
  intro hndvd
  rw [r2, ceil_div_of_not_dvd src.length P hP hndvd]

/-- Claim C1, counterexample to the claimed fetch count: with N = 1 row and
page size P = 1 the claimed count is ⌈N/P⌉ = (1 + 1 - 1) / 1 = 1, but the
loop performs 2 page fetches (the first returns the full single-row page, so
the loop continues, and the second returns an empty page). -/
theorem C1_fetch_count_counterexample :
    (sync_transactions [1] 1 (fun _ => 200)).fetches = 2 ∧
    (([1] : List Nat).length + 1 - 1) / 1 = 1 := by
  decide

theorem C1_watermark_completeness_witness :
    (sync_transactions [1, 2, 3] 2 (fun _ => 200)).pages.flatten = [1, 2, 3] ∧
    (sync_transactions [1, 2, 3] 2 (fun _ => 200)).fetches =
      ([1, 2, 3] : List Nat).length / 2 + 1 := by
  have h := C1_watermark_completeness [1, 2, 3] 2 (fun _ => 200)
    (by decide) (by decide) (by decide)
  exact ⟨h.1, h.2.1⟩

/-- Claim C4 (confirmed): the watermark cursor invariant.  Every row returned
by an issued watermark query has id strictly greater than the cursor — in
particular a row whose id equals the previous watermark is never re-fetched,
the lower bound being exclusive; a non-empty page pushes the cursor strictly
upward (the page maximum exceeds the old cursor); and across a whole phase
run the successive cursor values form a strictly increasing — in particular
monotonically non-decreasing — chain from the initial cursor 0. -/
theorem C4_watermark_cursor_invariant (src : List Nat) (P : Nat) (w : Nat → Nat) (c : Nat) :
    (∀ x ∈ watermarkQuery src c P, c < x ∧ x ≠ c) ∧
    (watermarkQuery src c P ≠ [] → c < pyMax (watermarkQuery src c P)) ∧
    List.Chain' (· < ·) (0 :: (sync_transactions src P w).cursors) ∧
    List.Chain' (· ≤ ·) (0 :: (sync_transactions src P w).cursors) := by
  have hchain : List.Chain' (· < ·) (0 :: (sync_transactions src P w).cursors) :=
    sync_transactions_go_cursors_chain src P w (src.length + 1) 0 0 0
  refine ⟨?_, watermarkQuery_cursor_lt_pyMax src c P, hchain, ?_⟩
  · intro x hx
    have h := watermarkQuery_mem_gt src c P x hx
    exact ⟨h, fun hc => by omega⟩
  · exact List.Chain'.imp (fun a b h => le_of_lt h) hchain

theorem C4_watermark_cursor_invariant_witness :
    (∀ x ∈ watermarkQuery [1, 2] 0 1, 0 < x ∧ x ≠ 0) ∧
    List.Chain' (· < ·) (0 :: (sync_transactions [1, 2] 1 (fun _ => 200)).cursors) := by
  have h := C4_watermark_cursor_invariant [1, 2] 1 (fun _ => 200) 0
  exact ⟨h.1, h.2.2.1⟩

/-- Claim C7 (confirmed): when a destination write for a batch returns a
status outside 200/201/204, the failure is surfaced in the error log, the
running written-total is not incremented for that batch (the total is exactly
the sum of the sizes of the accepted batches), each batch is written exactly
once within the run (batch numbers are pairwise distinct — no retry), every
write call carries the status the destination returned for that batch, and
the phase's fetch/cursor progression is identical to that of a run whose
writes all succeed: the phase continues fetching with the advanced cursor.
The sink call itself is modelled as total — a non-2xx status does not raise. -/
theorem C7_write_failure_continuation (src : List Nat) (P : Nat) (w : Nat → Nat)
    (hP : 0 < P) (hs : List.Pairwise (· < ·) src) :
    (sync_transactions src P w).total =
      (((sync_transactions src P w).writes.filter
        (fun wc => okStatus wc.status)).map WriteCall.size).sum ∧
    (sync_transactions src P w).errlog =
      ((sync_transactions src P w).writes.filter
        (fun wc => !okStatus wc.status)).map WriteCall.batch ∧
    ((sync_transactions src P w).writes.map WriteCall.batch).Nodup ∧
    (∀ wc ∈ (sync_transactions src P w).writes, wc.status = w wc.batch) ∧
    (sync_transactions src P w).pages = (sync_transactions src P (fun _ => 200)).pages ∧
    (sync_transactions src P w).fetches = (sync_transactions src P (fun _ => 200)).fetches ∧
    (sync_transactions src P w).finalCursor =
      (sync_transactions src P (fun _ => 200)).finalCursor := by
  have hfuel : (src.filter (fun x => decide (0 < x))).length < src.length + 1 := by
    have := List.length_filter_le (fun x => decide (0 < x)) src
    omega
  obtain ⟨r1, r2, r3, r4, r5, r6, r7, r8, r9⟩ :=
    sync_transactions_go_spec src P w hP hs (src.length + 1) 0 0 0 hfuel
  obtain ⟨i1, i2, i3, i4⟩ := sync_transactions_go_write_indep src P w (fun _ => 200)
    (src.length + 1) 0 0 0 0
  unfold sync_transactions
  refine ⟨by simpa using r6, r7, ?_, r5, i1, i3, i4⟩
  rw [r3]
  exact List.nodup_range' _ _

theorem C7_write_failure_continuation_witness :
    (sync_transactions [1, 2, 3] 2 (fun b => if b = 1 then 500 else 201)).total =
      (((sync_transactions [1, 2, 3] 2 (fun b => if b = 1 then 500 else 201)).writes.filter
        (fun wc => okStatus wc.status)).map WriteCall.size).sum ∧
    ((sync_transactions [1, 2, 3] 2
      (fun b => if b = 1 then 500 else 201)).writes.map WriteCall.batch).Nodup := by
  have h := C7_write_failure_continuation [1, 2, 3] 2 (fun b => if b = 1 then 500 else 201)
    (by decide) (by decide)
  exact ⟨h.1, h.2.2.1⟩

theorem flatten_map_singleton {α β : Type} (f : α → β) (l : List α) :
    (l.map (fun c => [f c])).flatten = l.map f := by
  induction l with
  | nil => rfl
  | cons a t ih => simp [ih]

theorem utf8Bytes_ascii (c : Char) (h : c.toNat < 128) : utf8Bytes c = [c.toNat] := by
  unfold utf8Bytes
  rw [if_pos h]

theorem strBytes_ascii (s : String) (h : ∀ c ∈ s.toList, c.toNat < 128) :
    strBytes s = s.toList.map Char.toNat := by
  unfold strBytes
  rw [List.map_congr_left (fun c hc => utf8Bytes_ascii c (h c hc))]
  exact flatten_map_singleton Char.toNat s.toList

theorem quote_bytes_length (bs : List Nat) :
    ((bs.map quoteByte).flatten).length =
      bs.length + 2 * (bs.filter (fun b => !alwaysSafeByte b)).length := by
  induction bs with
  | nil => rfl
  | cons a t ih =>
    by_cases h : alwaysSafeByte a = true
    · simp only [List.map_cons, List.flatten_cons, List.length_append, ih, quoteByte,
        if_pos h, List.filter_cons]
      simp [h]
      omega
    · simp only [List.map_cons, List.flatten_cons, List.length_append, ih, quoteByte,
        if_neg h, List.filter_cons]
      simp only [Bool.not_eq_true] at h
      simp [h]
      omega

/-- Claim C3, counterexample: a source that always answers 429 produces three
30-second waits, one after each of the three attempts (the loop sleeps before
re-checking the attempt budget, so the final failed attempt also sleeps), not
the two intervening waits the claim states. -/
theorem C3_retry_waits_counterexample :
    (make_ns_request (fun _ => ReqOutcome.resp 429) 3).sleeps = [30, 30, 30] ∧
    (make_ns_request (fun _ => ReqOutcome.resp 429) 3).sleeps.length ≠ 2 := by
  decide

/-- Claim C3 (corrected): if every attempt of `make_ns_request` receives an
HTTP 429 response, the call performs exactly 3 attempts and returns the
sentinel failure value `None`; it performs three 30-second waits — one after
each 429, including the final attempt — rather than only two intervening
ones. -/
theorem C3_retry_bound (outcome : Nat → ReqOutcome)
    (h : ∀ i, outcome i = ReqOutcome.resp 429) :
    make_ns_request outcome 3 = ⟨none, 3, [30, 30, 30]⟩ := by
  unfold make_ns_request
  simp [make_ns_request_go, h 0, h 1, h 2]

theorem C3_retry_bound_witness :
    make_ns_request (fun _ => ReqOutcome.resp 429) 3 = ⟨none, 3, [30, 30, 30]⟩ :=
  C3_retry_bound (fun _ => ReqOutcome.resp 429) (fun _ => rfl)

theorem range_map_shift_fn {β : Type} (g : Nat → β) (k d : Nat) :
    (List.range (d + 1)).map (fun j => g (k + j)) =
      g k :: (List.range d).map (fun j => g (k + 1 + j)) := by
  rw [List.range_succ_eq_map, List.map_cons, List.map_map]
  congr 1
  refine List.map_congr_left ?_
  intro j hj
  simp only [Function.comp_apply, Nat.succ_eq_add_one]
  congr 1
  omega

theorem make_ns_request_go_first_nonretry (outcome : Nat → ReqOutcome) :
    ∀ d r k s, d < r →
      (∀ j, j < d →
        outcome (k + j) = ReqOutcome.exc ∨ outcome (k + j) = ReqOutcome.resp 429) →
      outcome (k + d) = ReqOutcome.resp s → s ≠ 429 →
      make_ns_request_go outcome r k =
        ⟨some s, d + 1, (List.range d).map (fun j => retrySleep (outcome (k + j)))⟩ := by
  intro d
  induction d with
  | zero =>
    intro r k s hdr hprev hout hs
    cases r with
    | zero => omega
    | succ r' =>
      rw [Nat.add_zero] at hout
      simp [make_ns_request_go, hout, hs]
  | succ d' ihd =>
    intro r k s hdr hprev hout hs
    cases r with
    | zero => omega
    | succ r' =>
      have h0 := hprev 0 (by omega)
      rw [Nat.add_zero] at h0
      have hout2 : outcome (k + 1 + d') = ReqOutcome.resp s := by
        rw [show k + 1 + d' = k + (d' + 1) from by omega]
        exact hout
      have hprev2 : ∀ j, j < d' →
          outcome (k + 1 + j) = ReqOutcome.exc ∨ outcome (k + 1 + j) = ReqOutcome.resp 429 := by
        intro j hj
        rw [show k + 1 + j = k + (j + 1) from by omega]
        exact hprev (j + 1) (by omega)
      have hrec := ihd r' (k + 1) s (by omega) hprev2 hout2 hs
      have hmap := range_map_shift_fn (fun i => retrySleep (outcome i)) k d'
      rcases h0 with h0 | h0
      · simp only [make_ns_request_go, h0, hrec, hmap]
        rfl
      · simp only [make_ns_request_go, h0, hrec, hmap]
        rfl

/-- Claim C6 (confirmed): when an attempt receives an HTTP response whose
status is not 429 (after any run of retryable outcomes), `make_ns_request`
returns exactly that response on the attempt that received it: the attempt
count is that attempt's index plus one (no further attempts) and the sleeps
are exactly the ones owed to the earlier retryable outcomes — no wait is
performed for the returned response. -/
theorem C6_non_retryable_returned (outcome : Nat → ReqOutcome) (retries i s : Nat)
    (hi : i < retries)
    (hprev : ∀ j, j < i → outcome j = ReqOutcome.exc ∨ outcome j = ReqOutcome.resp 429)
    (hout : outcome i = ReqOutcome.resp s) (hs : s ≠ 429) :
    make_ns_request outcome retries =
      ⟨some s, i + 1, (List.range i).map (fun j => retrySleep (outcome j))⟩ := by
  have h := make_ns_request_go_first_nonretry outcome i retries 0 s hi
    (fun j hj => by simpa using hprev j hj) (by simpa using hout) hs
  unfold make_ns_request
  rw [h]
  simp

theorem C6_non_retryable_returned_witness :
    make_ns_request (fun i => if i = 0 then ReqOutcome.resp 429 else ReqOutcome.resp 500) 3 =
      ⟨some 500, 2, [30]⟩ := by
  have h := C6_non_retryable_returned
    (fun i => if i = 0 then ReqOutcome.resp 429 else ReqOutcome.resp 500) 3 1 500
    (by omega)
    (fun j hj => by
      have hj0 : j = 0 := by omega
      subst hj0
      exact Or.inr rfl)
    rfl
    (by omega)
  rw [h]
  decide

/-- Claim C2, counterexample: the encoding used in the base string does treat
`~` as safe — `quote` maps the string containing only `~` to itself, not to
the escape `%7E` — so "for every input containing a tilde the encoding
escapes it" is false (modern CPython never quotes the tilde). -/
theorem C2_tilde_counterexample :
    quote "~" = "~" ∧ '~' ∈ "~".toList ∧ quote "~" ≠ "%7E" := by
  decide

/-- Claim C2 (corrected): in the request-signing canonicalization the signing
parameters are sorted by parameter name (the sorted parameter list is a
permutation of the original with keys in nondecreasing order), and each
component is percent-encoded by the strict `safe=''` rule of modern CPython,
which escapes exactly the bytes outside letters, digits and `- . _ ~` — an
ASCII string is left unchanged by the encoding precisely when all of its
bytes are in that unreserved set; in particular `~` is treated as safe,
contrary to the claim. -/
theorem C2_signing_canonicalization (ps : List (String × String)) (s : String)
    (hascii : ∀ c ∈ s.toList, c.toNat < 128) :
    List.Sorted (· ≤ ·) ((sortPairs ps).map Prod.fst) ∧
    (sortPairs ps).Perm ps ∧
    quote "~" = "~" ∧
    (quote s = s ↔ ∀ b ∈ strBytes s, alwaysSafeByte b = true) := by
  refine ⟨?_, List.perm_insertionSort keyLe ps, by decide, ?_, ?_⟩
  · have hsorted := List.sorted_insertionSort keyLe ps
    exact hsorted.map Prod.fst (fun a b h => h)
  · intro hqs b hb
    by_contra hbad
    have hmem : b ∈ (strBytes s).filter (fun x => !alwaysSafeByte x) :=
      List.mem_filter.mpr ⟨hb, by simp [hbad]⟩
    have hcount : 0 < ((strBytes s).filter (fun x => !alwaysSafeByte x)).length :=
      List.length_pos.mpr (List.ne_nil_of_mem hmem)
    have hql : (quote s).length = (((strBytes s).map quoteByte).flatten).length := rfl
    have hsl : s.length = s.toList.length := rfl
    have hbl : (strBytes s).length = s.toList.length := by
      rw [strBytes_ascii s hascii, List.length_map]
    have hlen := congrArg String.length hqs
    rw [hql, quote_bytes_length] at hlen
    omega
  · intro hall
    unfold quote
    have hmapq : (strBytes s).map quoteByte = (strBytes s).map (fun b => [Char.ofNat b]) :=
      List.map_congr_left (fun b hb => by unfold quoteByte; rw [if_pos (hall b hb)])
    rw [hmapq, flatten_map_singleton, strBytes_ascii s hascii, List.map_map]
    have hid : ∀ l : List Char, l.map (Char.ofNat ∘ Char.toNat) = l := by
      intro l
      induction l with
      | nil => rfl
      | cons c t ih => simp [Function.comp_apply, Char.ofNat_toNat, ih]
    rw [hid]
    exact String.ext_iff.mpr rfl

theorem C2_signing_canonicalization_witness :
    List.Sorted (· ≤ ·)
      ((sortPairs [("oauth_token", "abc"), ("oauth_consumer_key", "k")]).map Prod.fst) ∧
    (quote "abc~" = "abc~" ↔ ∀ b ∈ strBytes "abc~", alwaysSafeByte b = true) := by
  have h := C2_signing_canonicalization
    [("oauth_token", "abc"), ("oauth_consumer_key", "k")] "abc~" (by decide)
  exact ⟨h.1, h.2.2.2⟩

theorem transformLine_ok_fields (li : LineRow) (d : DestLine)
    (h : transformLine li = Except.ok d) :
    coerceQty li.quantity = Except.ok d.quantity ∧
    coerceOptFloat li.rate = Except.ok d.rate ∧
    coerceOptFloat li.netamount = Except.ok d.net_amount ∧
    coerceOptFloat li.foreignamount = Except.ok d.foreign_amount ∧
    pyReq li.line_id = Except.ok d.ns_line_id ∧
    pyReq li.transaction_id = Except.ok d.ns_transaction_id ∧
    d.ns_item_id = li.item_id ∧
    d.sku = li.sku.getD (SrcVal.vstr "UNKNOWN") ∧
    d.item_type = li.itemtype := by
  cases h1 : pyReq li.line_id with
  | error e => simp [transformLine, h1] at h
  | ok lid =>
  cases h2 : pyReq li.transaction_id with
  | error e => simp [transformLine, h1, h2] at h
  | ok tid =>
  cases h3 : coerceQty li.quantity with
  | error e => simp [transformLine, h1, h2, h3] at h
  | ok qty =>
  cases h4 : coerceOptFloat li.rate with
  | error e => simp [transformLine, h1, h2, h3, h4] at h
  | ok r =>
  cases h5 : coerceOptFloat li.netamount with
  | error e => simp [transformLine, h1, h2, h3, h4, h5] at h
  | ok na =>
  cases h6 : coerceOptFloat li.foreignamount with
  | error e => simp [transformLine, h1, h2, h3, h4, h5, h6] at h
  | ok fa =>
  simp only [transformLine, h1, h2, h3, h4, h5, h6, Except.ok.injEq] at h
  subst h
  exact ⟨rfl, rfl, rfl, rfl, rfl, rfl, rfl, rfl, rfl⟩

theorem transformTxn_ok_fields (t : TxnRow) (dt : DestTxn)
    (h : transformTxn t = Except.ok dt) :
    coerceOptFloat t.transaction_total = Except.ok dt.foreign_total ∧
    pyReq t.transaction_id = Except.ok dt.ns_transaction_id ∧
    pyReq t.customer_id = Except.ok dt.ns_customer_id ∧
    dt.status = t.status := by
  cases h1 : pyReq t.transaction_id with
  | error e => simp [transformTxn, h1] at h
  | ok tid =>
  cases h2 : pyReq t.tranid with
  | error e => simp [transformTxn, h1, h2] at h
  | ok trid =>
  cases h3 : pyReq t.transaction_type with
  | error e => simp [transformTxn, h1, h2, h3] at h
  | ok tty =>
  cases h4 : pyReq t.trandate with
  | error e => simp [transformTxn, h1, h2, h3, h4] at h
  | ok tdate =>
  cases h5 : coerceOptFloat t.transaction_total with
  | error e => simp [transformTxn, h1, h2, h3, h4, h5] at h
  | ok ftot =>
  cases h6 : pyReq t.customer_id with
  | error e => simp [transformTxn, h1, h2, h3, h4, h5, h6] at h
  | ok cid =>
  simp only [transformTxn, h1, h2, h3, h4, h5, h6, Except.ok.injEq] at h
  subst h
  exact ⟨rfl, rfl, rfl, rfl⟩

theorem coerceOptFloat_falsy (v : Option SrcVal) (h : truthyOpt v = false) :
    coerceOptFloat v = Except.ok none := by
  unfold coerceOptFloat
  rw [h]
  rfl

theorem coerceQty_falsy (v : Option SrcVal) (h : truthyOpt v = false) :
    coerceQty v = Except.ok 0 := by
  unfold coerceQty
  rw [h]
  rfl

/-- Claim C9 (confirmed): in the line-item transform, an absent `quantity`
field is coerced to the number 0, while absent `rate`, `netamount` and
`foreignamount` fields are mapped to null (`none`), not to 0. -/
theorem C9_null_vs_zero_coercion (li : LineRow) (d : DestLine)
    (h : transformLine li = Except.ok d) :
    (li.quantity = none → d.quantity = 0) ∧
    (li.rate = none → d.rate = none) ∧
    (li.netamount = none → d.net_amount = none) ∧
    (li.foreignamount = none → d.foreign_amount = none) := by
  obtain ⟨f1, f2, f3, f4, _⟩ := transformLine_ok_fields li d h
  refine ⟨?_, ?_, ?_, ?_⟩
  · intro hq
    rw [hq, coerceQty_falsy none rfl] at f1
    exact ((Except.ok.injEq _ _).mp f1).symm
  · intro hr
    rw [hr, coerceOptFloat_falsy none rfl] at f2
    exact ((Except.ok.injEq _ _).mp f2).symm
  · intro hr
    rw [hr, coerceOptFloat_falsy none rfl] at f3
    exact ((Except.ok.injEq _ _).mp f3).symm
  · intro hr
    rw [hr, coerceOptFloat_falsy none rfl] at f4
    exact ((Except.ok.injEq _ _).mp f4).symm

theorem C9_null_vs_zero_coercion_witness :
    ((⟨some (SrcVal.vnum 2), some (SrcVal.vnum 1), none, none, none, none, none, none,
        none⟩ : LineRow).quantity = none →
      (⟨SrcVal.vnum 1, SrcVal.vnum 2, none, SrcVal.vstr "UNKNOWN", 0, none, none, none,
        none⟩ : DestLine).quantity = 0) ∧
    ((⟨some (SrcVal.vnum 2), some (SrcVal.vnum 1), none, none, none, none, none, none,
        none⟩ : LineRow).rate = none →
      (⟨SrcVal.vnum 1, SrcVal.vnum 2, none, SrcVal.vstr "UNKNOWN", 0, none, none, none,
        none⟩ : DestLine).rate = none) ∧
    ((⟨some (SrcVal.vnum 2), some (SrcVal.vnum 1), none, none, none, none, none, none,
        none⟩ : LineRow).netamount = none →
      (⟨SrcVal.vnum 1, SrcVal.vnum 2, none, SrcVal.vstr "UNKNOWN", 0, none, none, none,
        none⟩ : DestLine).net_amount = none) ∧
    ((⟨some (SrcVal.vnum 2), some (SrcVal.vnum 1), none, none, none, none, none, none,
        none⟩ : LineRow).foreignamount = none →
      (⟨SrcVal.vnum 1, SrcVal.vnum 2, none, SrcVal.vstr "UNKNOWN", 0, none, none, none,
        none⟩ : DestLine).foreign_amount = none) :=
  C9_null_vs_zero_coercion
    ⟨some (SrcVal.vnum 2), some (SrcVal.vnum 1), none, none, none, none, none, none, none⟩
    ⟨SrcVal.vnum 1, SrcVal.vnum 2, none, SrcVal.vstr "UNKNOWN", 0, none, none, none, none⟩
    (by rfl)

/-- Claim C10 (confirmed): the coercion is decided by Python truthiness, not
key presence.  A `rate`, `netamount` or `foreignamount` field present but
equal to the number 0 or to the empty string transforms to null, exactly as
an absent field would, so a genuinely zero-valued rate is indistinguishable
from an absent one in the destination record; a `quantity` present as 0
yields 0; and a transaction `foreigntotal` present as 0 (or empty string)
yields a null `foreign_total`. -/
theorem C10_truthiness_coercion (li : LineRow) (d : DestLine) (t : TxnRow) (dt : DestTxn)
    (h1 : transformLine li = Except.ok d) (h2 : transformTxn t = Except.ok dt) :
    ((li.rate = some (SrcVal.vnum 0) ∨ li.rate = some (SrcVal.vstr "")) → d.rate = none) ∧
    ((li.netamount = some (SrcVal.vnum 0) ∨ li.netamount = some (SrcVal.vstr "")) →
      d.net_amount = none) ∧
    ((li.foreignamount = some (SrcVal.vnum 0) ∨ li.foreignamount = some (SrcVal.vstr "")) →
      d.foreign_amount = none) ∧
    (li.quantity = some (SrcVal.vnum 0) → d.quantity = 0) ∧
    ((t.transaction_total = some (SrcVal.vnum 0) ∨
        t.transaction_total = some (SrcVal.vstr "")) → dt.foreign_total = none) := by
  obtain ⟨f1, f2, f3, f4, _⟩ := transformLine_ok_fields li d h1
  obtain ⟨g1, _⟩ := transformTxn_ok_fields t dt h2
  have hfalsy0 : truthyOpt (some (SrcVal.vnum 0)) = false := by
    simp [truthyOpt, truthy]
  have hfalsyE : truthyOpt (some (SrcVal.vstr "")) = false := by
    simp [truthyOpt, truthy]
  refine ⟨?_, ?_, ?_, ?_, ?_⟩
  · rintro (hr | hr)
    · rw [hr, coerceOptFloat_falsy _ hfalsy0] at f2
      exact ((Except.ok.injEq _ _).mp f2).symm
    · rw [hr, coerceOptFloat_falsy _ hfalsyE] at f2
      exact ((Except.ok.injEq _ _).mp f2).symm
  · rintro (hr | hr)
    · rw [hr, coerceOptFloat_falsy _ hfalsy0] at f3
      exact ((Except.ok.injEq _ _).mp f3).symm
    · rw [hr, coerceOptFloat_falsy _ hfalsyE] at f3
      exact ((Except.ok.injEq _ _).mp f3).symm
  · rintro (hr | hr)
    · rw [hr, coerceOptFloat_falsy _ hfalsy0] at f4
      exact ((Except.ok.injEq _ _).mp f4).symm
    · rw [hr, coerceOptFloat_falsy _ hfalsyE] at f4
      exact ((Except.ok.injEq _ _).mp f4).symm
  · intro hq
    rw [hq, coerceQty_falsy _ hfalsy0] at f1
    exact ((Except.ok.injEq _ _).mp f1).symm
  · rintro (hr | hr)
    · rw [hr, coerceOptFloat_falsy _ hfalsy0] at g1
      exact ((Except.ok.injEq _ _).mp g1).symm
    · rw [hr, coerceOptFloat_falsy _ hfalsyE] at g1
      exact ((Except.ok.injEq _ _).mp g1).symm

theorem C10_truthiness_coercion_witness :
    (((⟨some (SrcVal.vnum 2), some (SrcVal.vnum 1), none, none, some (SrcVal.vnum 0),
        some (SrcVal.vnum 0), some (SrcVal.vstr ""), some (SrcVal.vnum 0),
        none⟩ : LineRow).rate = some (SrcVal.vnum 0) ∨
      (⟨some (SrcVal.vnum 2), some (SrcVal.vnum 1), none, none, some (SrcVal.vnum 0),
        some (SrcVal.vnum 0), some (SrcVal.vstr ""), some (SrcVal.vnum 0),
        none⟩ : LineRow).rate = some (SrcVal.vstr "")) →
      (⟨SrcVal.vnum 1, SrcVal.vnum 2, none, SrcVal.vstr "UNKNOWN", 0, none, none, none,
        none⟩ : DestLine).rate = none) ∧
    ((⟨some (SrcVal.vnum 2), some (SrcVal.vnum 1), none, none, some (SrcVal.vnum 0),
        some (SrcVal.vnum 0), some (SrcVal.vstr ""), some (SrcVal.vnum 0),
        none⟩ : LineRow).quantity = some (SrcVal.vnum 0) →
      (⟨SrcVal.vnum 1, SrcVal.vnum 2, none, SrcVal.vstr "UNKNOWN", 0, none, none, none,
        none⟩ : DestLine).quantity = 0) ∧
    (((⟨some (SrcVal.vnum 5), some (SrcVal.vstr "INV1"), some (SrcVal.vstr "CustInvc"),
        some (SrcVal.vstr "2025-01-01"), some (SrcVal.vnum 0), none,
        some (SrcVal.vnum 7)⟩ : TxnRow).transaction_total = some (SrcVal.vnum 0) ∨
      (⟨some (SrcVal.vnum 5), some (SrcVal.vstr "INV1"), some (SrcVal.vstr "CustInvc"),
        some (SrcVal.vstr "2025-01-01"), some (SrcVal.vnum 0), none,
        some (SrcVal.vnum 7)⟩ : TxnRow).transaction_total = some (SrcVal.vstr "")) →
      (⟨SrcVal.vnum 5, SrcVal.vstr "INV1", SrcVal.vstr "CustInvc",
        SrcVal.vstr "2025-01-01", none, none, SrcVal.vnum 7⟩ : DestTxn).foreign_total =
        none) := by
  have h := C10_truthiness_coercion
    ⟨some (SrcVal.vnum 2), some (SrcVal.vnum 1), none, none, some (SrcVal.vnum 0),
      some (SrcVal.vnum 0), some (SrcVal.vstr ""), some (SrcVal.vnum 0), none⟩
    ⟨SrcVal.vnum 1, SrcVal.vnum 2, none, SrcVal.vstr "UNKNOWN", 0, none, none, none, none⟩
    ⟨some (SrcVal.vnum 5), some (SrcVal.vstr "INV1"), some (SrcVal.vstr "CustInvc"),
      some (SrcVal.vstr "2025-01-01"), some (SrcVal.vnum 0), none, some (SrcVal.vnum 7)⟩
    ⟨SrcVal.vnum 5, SrcVal.vstr "INV1", SrcVal.vstr "CustInvc", SrcVal.vstr "2025-01-01",
      none, none, SrcVal.vnum 7⟩
    (by rfl) (by rfl)
  exact ⟨h.1, h.2.2.2.1, h.2.2.2.2⟩

theorem mapM_except_ok {α β γ : Type} (f : α → Except γ β) (l : List α)
    (h : ∀ x ∈ l, (f x).toBool = true) : ∃ ys, l.mapM f = Except.ok ys := by
  induction l with
  | nil => exact ⟨[], rfl⟩
  | cons a t ih =>
    obtain ⟨ys, hys⟩ := ih (fun x hx => h x (List.mem_cons_of_mem a hx))
    have ha := h a (List.mem_cons_self a t)
    cases hfa : f a with
    | error e =>
      rw [hfa] at ha
      simp [Except.toBool] at ha
    | ok y =>
      refine ⟨y :: ys, ?_⟩
      rw [List.mapM_cons, hfa, hys]
      rfl

theorem sync_transactions_streaming_go_ok (fetch : Nat → FetchOutcome)
    (write : Nat → WriteOutcome) (limit : Nat)
    (hf : ∀ b, fetchOk (fetch b) = true)
    (hw : ∀ b, write b ≠ WriteOutcome.raise) :
    ∀ fuel b total, ∃ r,
      sync_transactions_streaming_go fetch write limit fuel b total = Except.ok r := by
  intro fuel
  induction fuel with
  | zero => intro b total; exact ⟨⟨total, 0, [], false⟩, rfl⟩
  | succ f ih =>
    intro b total
    cases hfb : fetch (b + 1) with
    | noResp =>
      refine ⟨⟨total, 1, [], true⟩, ?_⟩
      simp [sync_transactions_streaming_go, hfb]
    | resp s body =>
      by_cases hs : s = 200
      · subst hs
        cases body with
        | badJson =>
          have hcontra := hf (b + 1)
          rw [hfb] at hcontra
          simp [fetchOk] at hcontra
        | goodJson items =>
          have hall : ∀ x ∈ items, (transformTxn x).toBool = true := by
            have hx := hf (b + 1)
            rw [hfb] at hx
            simpa [fetchOk, List.all_eq_true] using hx
          obtain ⟨ys, hys⟩ := mapM_except_ok transformTxn items hall
          have hys2 : List.mapM.loop transformTxn items [] = Except.ok ys := hys
          by_cases hempty : items.isEmpty = true
          · refine ⟨⟨total, 1, [], false⟩, ?_⟩
            simp [sync_transactions_streaming_go, hfb, hempty]
          · cases hwb : write (b + 1) with
            | raise => exact absurd hwb (hw (b + 1))
            | status st =>
              by_cases hshort : items.length < limit
              · refine ⟨⟨if okStatus st = true then total + ys.length else total, 1,
                  if okStatus st = true then [] else [b + 1], false⟩, ?_⟩
                simp [sync_transactions_streaming_go, hfb, hempty, hys, hys2, hwb, hshort]
              · obtain ⟨r, hr⟩ := ih (b + 1)
                  (if okStatus st = true then total + ys.length else total)
                refine ⟨⟨r.total, r.fetches + 1,
                  (if okStatus st = true then [] else [b + 1]) ++ r.errlog,
                  r.fetchFailed⟩, ?_⟩
                simp [sync_transactions_streaming_go, hfb, hempty, hys, hys2, hwb, hshort, hr]
      · refine ⟨⟨total, 1, [], true⟩, ?_⟩
        simp [sync_transactions_streaming_go, hfb, hs]

/-- Claim C8, counterexample: an error arising while the phase runs is not
always recovered locally — when a fetch returns HTTP 200 with a body that is
not valid JSON, `response.json()` raises and the exception escapes the
phase (`sync_transactions_streaming` has no handler), so the run crashes
rather than terminating the phase with counts and diagnostics. -/
theorem C8_exception_escape_counterexample :
    sync_transactions_streaming (fun _ => FetchOutcome.resp 200 RespBody.badJson)
      (fun _ => WriteOutcome.status 201) 1000 5 = Except.error PyErr.jsonError := by
  rfl

/-- Claim C8 (corrected): fetch failures (a `None` result or a non-200
status) and destination writes that return a non-2xx status are recovered
locally — the phase terminates or continues and returns normally — and under
those conditions no exception escapes: whenever every 200-response carries
valid JSON whose rows all transform without raising, and no destination
write raises a transport exception, the phase returns a normal result.
However, a malformed 200-response body, a row with missing or unparseable
required fields, or a transport exception inside `supabase_request` escapes
the phase as an exception (see the counterexample). -/
theorem C8_no_exception_when_wellformed (fetch : Nat → FetchOutcome)
    (write : Nat → WriteOutcome) (limit fuel : Nat)
    (hf : ∀ b, fetchOk (fetch b) = true)
    (hw : ∀ b, write b ≠ WriteOutcome.raise) :
    ∃ r, sync_transactions_streaming fetch write limit fuel = Except.ok r := by
  unfold sync_transactions_streaming
  exact sync_transactions_streaming_go_ok fetch write limit hf hw fuel 0 0

theorem C8_no_exception_when_wellformed_witness :
    ∃ r, sync_transactions_streaming (fun _ => FetchOutcome.resp 200 (RespBody.goodJson []))
      (fun _ => WriteOutcome.status 201) 1000 3 = Except.ok r :=
  C8_no_exception_when_wellformed (fun _ => FetchOutcome.resp 200 (RespBody.goodJson []))
    (fun _ => WriteOutcome.status 201) 1000 3 (fun _ => rfl)
    (fun _ h => WriteOutcome.noConfusion h)
